import Mathlib

/-!
Verification development for the rigid-body `Link` abstraction of the
`gazebo/physics` layer (header `src/gazebo/physics/Link.hh`).

The repository ships only the class declaration: every method body lives in a
translation unit that is not part of the sources.  Each operation below is
therefore modelled from the specification document, faithfully to its words,
and its doc comment records what is missing.  Vectors and masses are taken
over the rationals so that every definition is executable and decidable.
-/

namespace GazeboLink

/-- A 3-vector with rational components, standing in for `math::Vector3`. -/
structure Vector3 where
  x : ℚ
  y : ℚ
  z : ℚ
deriving DecidableEq, Repr

/-- The zero vector. -/
def Vector3.zero : Vector3 := ⟨0, 0, 0⟩

/-- Componentwise vector addition. -/
def Vector3.add (a b : Vector3) : Vector3 := ⟨a.x + b.x, a.y + b.y, a.z + b.z⟩

/-- Scalar multiplication of a vector. -/
def Vector3.smul (c : ℚ) (a : Vector3) : Vector3 := ⟨c * a.x, c * a.y, c * a.z⟩

/-- The standard cross product of two 3-vectors. -/
def Vector3.cross (a b : Vector3) : Vector3 :=
  ⟨a.y * b.z - a.z * b.y, a.z * b.x - a.x * b.z, a.x * b.y - a.y * b.x⟩

/-- A 3×3 matrix stored by rows, standing in for the rotation part of
`math::Pose`. -/
structure Mat3 where
  r1 : Vector3
  r2 : Vector3
  r3 : Vector3
deriving DecidableEq, Repr

/-- Dot product of two 3-vectors. -/
def Vector3.dot (a b : Vector3) : ℚ := a.x * b.x + a.y * b.y + a.z * b.z

/-- Apply a rotation matrix to a vector: the frame transform used to express
a body-frame quantity in world coordinates. -/
def Mat3.rotate (m : Mat3) (v : Vector3) : Vector3 :=
  ⟨m.r1.dot v, m.r2.dot v, m.r3.dot v⟩

/-- A rigid pose: position plus rotation, standing in for `math::Pose`. -/
structure Pose where
  pos : Vector3
  rot : Mat3
deriving DecidableEq, Repr

/-- Inertial descriptor of one body: mass and centre-of-mass offset in the
link frame (the fields of `physics::Inertial` that the claims constrain). -/
structure Inertial where
  mass : ℚ
  cog : Vector3
deriving DecidableEq, Repr

/-- A collision sub-object: unique numeric id, unique name within the link,
its mass and its position in the link frame. -/
structure Collision where
  id : ℕ
  name : String
  mass : ℚ
  pos : Vector3
deriving DecidableEq, Repr

/-- A joint, referenced (not owned) by a link: identified by name, recording
the two endpoint links by name. -/
structure Joint where
  name : String
  parentLink : String
  childLink : String
deriving DecidableEq, Repr

/-- The state of one `Link` entity: inertial descriptor (none while no
explicit inertial is configured), collision registry, parent/child joint
sets, force/torque accumulators with accelerations (all in the link-local
frame, per §4.4 the canonical representation), the attached-model table as
two parallel vectors, the enabled flag with a count of fired notifications,
and the sensor-name catalogue. -/
structure Link where
  inertial : Option Inertial
  collisions : List Collision
  parentJoints : List Joint
  childJoints : List Joint
  force : Vector3
  torque : Vector3
  linearAccel : Vector3
  angularAccel : Vector3
  attachedModels : List String
  attachedModelsOffset : List Pose
  enabled : Bool
  enabledFireCount : ℕ
  sensors : List String
deriving DecidableEq, Repr

/-- Modelled from the spec: the body of `Link::AddForceAtRelativePosition`
is not in the sources (pure-virtual, backend-implemented).  Per §4.4 the
force is accumulated in the link frame and the position is converted to an
equivalent pure torque by the lever-arm cross product `p × F`; accumulation
is additive. -/
def Link.AddForceAtRelativePosition (s : Link) (f p : Vector3) : Link :=
  { s with force := s.force.add f, torque := s.torque.add (p.cross f) }

/-- `Link::GetRelativeForce`: the accumulated force in the link frame. -/
def Link.GetRelativeForce (s : Link) : Vector3 := s.force

/-- `Link::GetRelativeTorque`: the accumulated torque in the link frame. -/
def Link.GetRelativeTorque (s : Link) : Vector3 := s.torque

/-- Modelled from the spec: the body of `Link::GetWorldForce` is not in the
sources (pure-virtual).  Per §4.4, world-frame quantities are always derived
from the canonical link-frame value via the link's current pose transform. -/
def Link.GetWorldForce (s : Link) (pose : Pose) : Vector3 :=
  pose.rot.rotate s.force

/-- Modelled from the spec: the body of `Link::Reset` is not in the sources.
Per §3 and §8, it zeroes the accumulated force, torque and linear/angular
acceleration while leaving every structural collection untouched. -/
def Link.Reset (s : Link) : Link :=
  { s with force := Vector3.zero, torque := Vector3.zero,
           linearAccel := Vector3.zero, angularAccel := Vector3.zero }

/-- Total mass of a list of collisions. -/
def totalMass (cs : List Collision) : ℚ := (cs.map Collision.mass).sum

/-- Mass-weighted sum of the collision positions. -/
def weightedPos (cs : List Collision) : Vector3 :=
  (cs.map fun c => Vector3.smul c.mass c.pos).foldr Vector3.add Vector3.zero

/-- Modelled from the spec: the body of `Link::SetInertialFromCollisions` is
not in the sources (declared private, `Link.hh` line 383).  Per §4.2, when no
explicit inertial was configured it aggregates the inertials of every owned
collision: total mass and mass-weighted centre of mass. -/
def Link.SetInertialFromCollisions (s : Link) : Link :=
  match s.inertial with
  | some _ => s
  | none =>
    let m := totalMass s.collisions
    let c := if m = 0 then Vector3.zero
             else Vector3.smul (1 / m) (weightedPos s.collisions)
    { s with inertial := some ⟨m, c⟩ }

/-- Modelled from the spec: the body of `Link::GetCollision(name)` is not in
the sources.  Per §4.2 and the header doc, it returns the collision with the
given name, or the null sentinel (here `none`) if absent. -/
def Link.GetCollision (s : Link) (nm : String) : Option Collision :=
  s.collisions.find? fun c => c.name = nm

/-- Modelled from the spec: the body of `Link::GetCollision(index)` is not in
the sources.  Per §4.2 it returns the collision at the ordinal index, or the
null sentinel when the index is at or past the count — never a throw. -/
def Link.GetCollisionByIndex (s : Link) (i : ℕ) : Option Collision :=
  s.collisions[i]?

/-- Modelled from the spec: the body of `Link::GetCollisionById` is not in
the sources.  Per §4.2 it returns the collision with the given id, or the
null sentinel if the id is unknown. -/
def Link.GetCollisionById (s : Link) (i : ℕ) : Option Collision :=
  s.collisions.find? fun c => c.id = i

/-- Modelled from the spec: the body of `Link::AddChildJoint` is not in the
sources.  Per §4.3 it inserts into the child-joint set; duplicate insertion
of the same joint is a no-op. -/
def Link.AddChildJoint (s : Link) (j : Joint) : Link :=
  if j ∈ s.childJoints then s
  else { s with childJoints := s.childJoints ++ [j] }

/-- Modelled from the spec: the body of `Link::AddParentJoint` is not in the
sources.  Per §4.3 it inserts into the parent-joint set; duplicate insertion
of the same joint is a no-op. -/
def Link.AddParentJoint (s : Link) (j : Joint) : Link :=
  if j ∈ s.parentJoints then s
  else { s with parentJoints := s.parentJoints ++ [j] }

/-- Modelled from the spec: the body of `Link::RemoveChildJoint` is not in
the sources.  Per §4.3 it erases the joint from the child-joint set if
present, and is a no-op otherwise. -/
def Link.RemoveChildJoint (s : Link) (j : Joint) : Link :=
  { s with childJoints := s.childJoints.filter fun x => x ≠ j }

/-- Modelled from the spec: the body of `Link::RemoveParentJoint` is not in
the sources.  Per §4.3 it erases the joint from the parent-joint set if
present, and is a no-op otherwise. -/
def Link.RemoveParentJoint (s : Link) (j : Joint) : Link :=
  { s with parentJoints := s.parentJoints.filter fun x => x ≠ j }

/-- Modelled from the spec: the body of `Link::GetChildJointsLinks` is not in
the sources.  Per §4.3 it produces the distinct set of neighbour links
reachable via the child-joint set. -/
def Link.GetChildJointsLinks (s : Link) : List String :=
  (s.childJoints.map Joint.childLink).dedup

/-- Modelled from the spec: the body of `Link::GetParentJointsLinks` is not
in the sources.  Per §4.3 it produces the distinct set of neighbour links
reachable via the parent-joint set. -/
def Link.GetParentJointsLinks (s : Link) : List String :=
  (s.parentJoints.map Joint.parentLink).dedup

/-- `Link::GetSensorCount`: the number of recorded sensor names. -/
def Link.GetSensorCount (s : Link) : ℕ := s.sensors.length

/-- Modelled from the spec: the body of `Link::GetSensorName` is not in the
sources.  Per the header doc (`Link.hh` lines 282–293) it returns the name of
the sensor at the index, or the empty string if the index is out of bounds. -/
def Link.GetSensorName (s : Link) (i : ℕ) : String :=
  s.sensors.getD i ""

/-- Modelled from the spec: the body of `Link::SetEnabled` is not in the
sources (pure-virtual).  Per §3, the notification fires exactly once per
observed transition of the enabled flag, not on a redundant call with the
current value; `enabledFireCount` counts the fired notifications. -/
def Link.SetEnabled (s : Link) (v : Bool) : Link :=
  if v = s.enabled then s
  else { s with enabled := v, enabledFireCount := s.enabledFireCount + 1 }

/-- Modelled from the spec: the body of `Link::AttachStaticModel` is not in
the sources.  Per §4.5 it appends unconditionally, recording the model in
`attachedModels` and its pose offset at the same position of
`attachedModelsOffset`. -/
def Link.AttachStaticModel (s : Link) (m : String) (off : Pose) : Link :=
  { s with attachedModels := s.attachedModels ++ [m],
           attachedModelsOffset := s.attachedModelsOffset ++ [off] }

/-- Modelled from the spec: the body of `Link::DetachStaticModel` is not in
the sources.  Per §4.5 it removes the first entry whose model name matches,
together with its offset, and is a no-op if absent. -/
def Link.DetachStaticModel (s : Link) (nm : String) : Link :=
  match s.attachedModels.findIdx? fun m => m = nm with
  | none => s
  | some i =>
    { s with attachedModels := s.attachedModels.eraseIdx i,
             attachedModelsOffset := s.attachedModelsOffset.eraseIdx i }

/-- Modelled from the spec: the body of `Link::DetachAllStaticModels` is not
in the sources.  Per §4.5 it clears the attachment table. -/
def Link.DetachAllStaticModels (s : Link) : Link :=
  { s with attachedModels := [], attachedModelsOffset := [] }

end GazeboLink

namespace GazeboLink

/-- Adding a vector to the zero vector gives it back. -/
theorem Vector3.zero_add (a : Vector3) : Vector3.zero.add a = a := by
  cases a
  simp [Vector3.add, Vector3.zero]

/-- A quiescent link, used as a concrete base state. -/
def emptyLink : Link :=
  { inertial := none, collisions := [], parentJoints := [], childJoints := [],
    force := Vector3.zero, torque := Vector3.zero, linearAccel := Vector3.zero,
    angularAccel := Vector3.zero, attachedModels := [], attachedModelsOffset := [],
    enabled := false, enabledFireCount := 0, sensors := [] }

/-- The identity pose: zero translation, identity rotation. -/
def idPose : Pose :=
  ⟨Vector3.zero, ⟨⟨1, 0, 0⟩, ⟨0, 1, 0⟩, ⟨0, 0, 1⟩⟩⟩

/-- C1: on a link with empty accumulators, `AddForceAtRelativePosition(F, p)`
followed by `GetRelativeForce` returns `F`, `GetRelativeTorque` returns the
cross product `p × F`, and `GetWorldForce` returns `F` transformed to world
coordinates via the link's current pose. -/
theorem addForceAtRelativePosition_frame_consistency (s : Link) (f p : Vector3)
    (pose : Pose) (hf : s.force = Vector3.zero) (ht : s.torque = Vector3.zero) :
    (s.AddForceAtRelativePosition f p).GetRelativeForce = f ∧
    (s.AddForceAtRelativePosition f p).GetRelativeTorque = p.cross f ∧
    (s.AddForceAtRelativePosition f p).GetWorldForce pose = pose.rot.rotate f := by
  refine ⟨?_, ?_, ?_⟩ <;>
    simp [Link.AddForceAtRelativePosition, Link.GetRelativeForce,
      Link.GetRelativeTorque, Link.GetWorldForce, hf, ht, Vector3.zero_add]

/-- Witness for C1 at a concrete force, position and pose. -/
theorem addForceAtRelativePosition_frame_consistency_witness :
    (emptyLink.AddForceAtRelativePosition ⟨1, 2, 3⟩ ⟨4, 5, 6⟩).GetRelativeForce
        = ⟨1, 2, 3⟩ ∧
    (emptyLink.AddForceAtRelativePosition ⟨1, 2, 3⟩ ⟨4, 5, 6⟩).GetRelativeTorque
        = Vector3.cross ⟨4, 5, 6⟩ ⟨1, 2, 3⟩ ∧
    (emptyLink.AddForceAtRelativePosition ⟨1, 2, 3⟩ ⟨4, 5, 6⟩).GetWorldForce idPose
        = idPose.rot.rotate ⟨1, 2, 3⟩ :=
  addForceAtRelativePosition_frame_consistency emptyLink ⟨1, 2, 3⟩ ⟨4, 5, 6⟩
    idPose rfl rfl

/-- C5: inserting the same joint twice with `AddChildJoint` (resp.
`AddParentJoint`) leaves the link in the same state as inserting it once:
duplicate insertion is a no-op. -/
theorem addJoint_duplicate_noop (s : Link) (j : Joint) :
    (s.AddChildJoint j).AddChildJoint j = s.AddChildJoint j ∧
    (s.AddParentJoint j).AddParentJoint j = s.AddParentJoint j := by
  constructor
  · by_cases h : j ∈ s.childJoints
    · simp [Link.AddChildJoint, h]
    · simp [Link.AddChildJoint, h]
  · by_cases h : j ∈ s.parentJoints
    · simp [Link.AddParentJoint, h]
    · simp [Link.AddParentJoint, h]

/-- C8: `Reset` zeroes the accumulated relative force, torque and the
linear/angular accelerations, while leaving the collision registry, both
joint sets and the attached-model table unchanged. -/
theorem reset_zeroes_accumulators (s : Link) :
    s.Reset.force = Vector3.zero ∧ s.Reset.torque = Vector3.zero ∧
    s.Reset.linearAccel = Vector3.zero ∧ s.Reset.angularAccel = Vector3.zero ∧
    s.Reset.collisions = s.collisions ∧ s.Reset.parentJoints = s.parentJoints ∧
    s.Reset.childJoints = s.childJoints ∧
    s.Reset.attachedModels = s.attachedModels ∧
    s.Reset.attachedModelsOffset = s.attachedModelsOffset := by
  simp [Link.Reset]

end GazeboLink

namespace GazeboLink

/-- A link owning two unit-mass collisions at (1,0,0) and (-1,0,0), with no
explicit inertial configured. -/
def twoCollisionLink : Link :=
  { emptyLink with
      collisions := [⟨0, "c1", 1, ⟨1, 0, 0⟩⟩, ⟨1, "c2", 1, ⟨-1, 0, 0⟩⟩] }

/-- C2: a link with no explicit inertial that owns exactly two collisions of
mass 1 at link-frame positions (1,0,0) and (-1,0,0) gets, after
`SetInertialFromCollisions`, an inertial descriptor with aggregate mass 2 and
centre of mass (0,0,0). -/
theorem setInertialFromCollisions_two_unit_masses (s : Link) (i1 i2 : ℕ)
    (n1 n2 : String) (hi : s.inertial = none)
    (hc : s.collisions = [⟨i1, n1, 1, ⟨1, 0, 0⟩⟩, ⟨i2, n2, 1, ⟨-1, 0, 0⟩⟩]) :
    s.SetInertialFromCollisions.inertial = some ⟨2, Vector3.zero⟩ := by
  simp [Link.SetInertialFromCollisions, hi, hc, totalMass, weightedPos,
    Vector3.smul, Vector3.add, Vector3.zero]
  norm_num

/-- Witness for C2 on the concrete two-collision link. -/
theorem setInertialFromCollisions_two_unit_masses_witness :
    twoCollisionLink.SetInertialFromCollisions.inertial
      = some ⟨2, Vector3.zero⟩ :=
  setInertialFromCollisions_two_unit_masses twoCollisionLink 0 1 "c1" "c2"
    rfl rfl

/-- C3: looking up an absent collision — by a name no collision carries, by
an index at or past the collision count, or by an unknown id — returns the
null sentinel `none`; the lookups are total functions and cannot throw. -/
theorem getCollision_absent_returns_none (s : Link) (nm : String) (i k : ℕ)
    (hn : ∀ c ∈ s.collisions, c.name ≠ nm)
    (hi : s.collisions.length ≤ i)
    (hk : ∀ c ∈ s.collisions, c.id ≠ k) :
    s.GetCollision nm = none ∧ s.GetCollisionByIndex i = none ∧
    s.GetCollisionById k = none := by
  refine ⟨?_, ?_, ?_⟩
  · simp only [Link.GetCollision, List.find?_eq_none, decide_eq_true_eq]
    exact hn
  · simp only [Link.GetCollisionByIndex]
    exact List.getElem?_eq_none hi
  · simp only [Link.GetCollisionById, List.find?_eq_none, decide_eq_true_eq]
    exact hk

/-- Witness for C3 on the concrete two-collision link. -/
theorem getCollision_absent_returns_none_witness :
    twoCollisionLink.GetCollision "c9" = none ∧
    twoCollisionLink.GetCollisionByIndex 5 = none ∧
    twoCollisionLink.GetCollisionById 7 = none :=
  getCollision_absent_returns_none twoCollisionLink "c9" 5 7
    (by decide) (by decide) (by decide)

/-- C4: starting from a disabled link, `SetEnabled(true)` followed by
`SetEnabled(true)` again fires exactly one enabled notification; a redundant
`SetEnabled` call with the current value fires none and leaves the state
unchanged. -/
theorem setEnabled_fires_once_per_transition (s : Link) (v : Bool)
    (h : s.enabled = false) :
    ((s.SetEnabled true).SetEnabled true).enabledFireCount
      = s.enabledFireCount + 1 ∧
    (v = s.enabled → s.SetEnabled v = s) := by
  constructor
  · simp [Link.SetEnabled, h]
  · intro hv
    simp [Link.SetEnabled, hv]

/-- Witness for C4 on the concrete disabled link. -/
theorem setEnabled_fires_once_per_transition_witness :
    ((emptyLink.SetEnabled true).SetEnabled true).enabledFireCount
      = emptyLink.enabledFireCount + 1 ∧
    (false = emptyLink.enabled → emptyLink.SetEnabled false = emptyLink) :=
  setEnabled_fires_once_per_transition emptyLink false rfl

end GazeboLink

namespace GazeboLink

/-- C6: after `AddChildJoint(j)` followed by `RemoveChildJoint(j)`, the
neighbour link of `j` is no longer reported by `GetChildJointsLinks` (when no
other stored joint reaches that neighbour); and removing a joint absent from
the respective set, child or parent, is a no-op leaving the state unchanged. -/
theorem removeJoint_add_remove_and_absent_noop (s : Link) (j : Joint) :
    ((∀ x ∈ s.childJoints, x.childLink ≠ j.childLink) →
      j.childLink ∉
        ((s.AddChildJoint j).RemoveChildJoint j).GetChildJointsLinks) ∧
    (j ∉ s.childJoints → s.RemoveChildJoint j = s) ∧
    (j ∉ s.parentJoints → s.RemoveParentJoint j = s) := by
  refine ⟨?_, ?_, ?_⟩
  · intro hne hmem
    have hj : j ∉ s.childJoints := fun hj => hne j hj rfl
    simp only [Link.GetChildJointsLinks, Link.RemoveChildJoint,
      Link.AddChildJoint, if_neg hj, List.mem_dedup, List.mem_map] at hmem
    obtain ⟨x, hx, hxl⟩ := hmem
    rw [List.mem_filter] at hx
    rcases List.mem_append.mp hx.1 with h1 | h1
    · exact hne x h1 hxl
    · have hxj : x = j := by simpa using h1
      subst hxj
      simpa using hx.2
  · intro hj
    have hfe : (s.childJoints.filter fun x => x ≠ j) = s.childJoints := by
      apply List.filter_eq_self.mpr
      intro a ha
      simp only [ne_eq, decide_eq_true_eq]
      intro h
      exact hj (h ▸ ha)
    rw [Link.RemoveChildJoint, hfe]
  · intro hj
    have hfe : (s.parentJoints.filter fun x => x ≠ j) = s.parentJoints := by
      apply List.filter_eq_self.mpr
      intro a ha
      simp only [ne_eq, decide_eq_true_eq]
      intro h
      exact hj (h ▸ ha)
    rw [Link.RemoveParentJoint, hfe]

/-- Witness for C6 on the empty link with a concrete joint. -/
theorem removeJoint_add_remove_and_absent_noop_witness :
    (Joint.mk "j1" "linkA" "linkB").childLink ∉
      ((emptyLink.AddChildJoint ⟨"j1", "linkA", "linkB"⟩).RemoveChildJoint
        ⟨"j1", "linkA", "linkB"⟩).GetChildJointsLinks ∧
    emptyLink.RemoveChildJoint ⟨"j1", "linkA", "linkB"⟩ = emptyLink ∧
    emptyLink.RemoveParentJoint ⟨"j1", "linkA", "linkB"⟩ = emptyLink :=
  ⟨(removeJoint_add_remove_and_absent_noop emptyLink ⟨"j1", "linkA", "linkB"⟩).1
      (by simp [emptyLink]),
   (removeJoint_add_remove_and_absent_noop emptyLink
      ⟨"j1", "linkA", "linkB"⟩).2.1 (by simp [emptyLink]),
   (removeJoint_add_remove_and_absent_noop emptyLink
      ⟨"j1", "linkA", "linkB"⟩).2.2 (by simp [emptyLink])⟩

/-- C7: `GetChildJointsLinks` and `GetParentJointsLinks` each return the
distinct set of neighbour links reachable via the respective joint set: the
returned list has no duplicates, and a link name is a member exactly when
some stored joint reaches it. -/
theorem getJointsLinks_distinct (s : Link) (x : String) :
    s.GetChildJointsLinks.Nodup ∧ s.GetParentJointsLinks.Nodup ∧
    (x ∈ s.GetChildJointsLinks ↔ ∃ jj ∈ s.childJoints, jj.childLink = x) ∧
    (x ∈ s.GetParentJointsLinks ↔ ∃ jj ∈ s.parentJoints, jj.parentLink = x) := by
  refine ⟨List.nodup_dedup _, List.nodup_dedup _, ?_, ?_⟩ <;>
    simp [Link.GetChildJointsLinks, Link.GetParentJointsLinks,
      List.mem_dedup, List.mem_map]

/-- C9: `GetSensorName(i)` is total: it returns the empty string when `i` is
at or past `GetSensorCount`, and the recorded sensor name at index `i`
otherwise. -/
theorem getSensorName_total (s : Link) (i : ℕ) :
    (s.GetSensorCount ≤ i → s.GetSensorName i = "") ∧
    (∀ h : i < s.sensors.length, s.GetSensorName i = s.sensors.get ⟨i, h⟩) := by
  constructor
  · intro h
    rw [Link.GetSensorCount] at h
    rw [Link.GetSensorName, List.getD_eq_getElem?_getD, List.getElem?_eq_none h]
    rfl
  · intro h
    rw [Link.GetSensorName, List.getD_eq_getElem?_getD,
      List.getElem?_eq_getElem h]
    simp

/-- A link with two recorded sensor names. -/
def sensorLink : Link := { emptyLink with sensors := ["imu", "cam"] }

/-- Witness for C9 on the concrete sensor catalogue. -/
theorem getSensorName_total_witness :
    sensorLink.GetSensorName 5 = "" ∧ sensorLink.GetSensorName 1 = "cam" :=
  ⟨(getSensorName_total sensorLink 5).1 (by decide),
   ((getSensorName_total sensorLink 1).2 (by decide)).trans rfl⟩

/-- Erasing the same index from two lists of equal length yields lists of
equal length. -/
theorem length_eraseIdx_congr {α β : Type} :
    ∀ (i : ℕ) (l1 : List α) (l2 : List β), l1.length = l2.length →
      (l1.eraseIdx i).length = (l2.eraseIdx i).length
  | _, [], [], _ => rfl
  | _, [], _ :: _, h => by simp at h
  | _, _ :: _, [], h => by simp at h
  | 0, _ :: _, _ :: _, h => by simpa using h
  | i + 1, a :: l1, b :: l2, h => by
      simp only [List.eraseIdx_cons_succ, List.length_cons,
        Nat.add_right_cancel_iff]
      exact length_eraseIdx_congr i l1 l2 (by simpa using h)

/-- C10: when `attachedModels` and `attachedModelsOffset` have equal length,
each of `AttachStaticModel`, `DetachStaticModel` and `DetachAllStaticModels`
preserves that equality, keeping the two vectors parallel. -/
theorem attachment_parallel_vectors (s : Link) (m nm : String) (off : Pose)
    (h : s.attachedModels.length = s.attachedModelsOffset.length) :
    (s.AttachStaticModel m off).attachedModels.length =
      (s.AttachStaticModel m off).attachedModelsOffset.length ∧
    (s.DetachStaticModel nm).attachedModels.length =
      (s.DetachStaticModel nm).attachedModelsOffset.length ∧
    s.DetachAllStaticModels.attachedModels.length =
      s.DetachAllStaticModels.attachedModelsOffset.length := by
  refine ⟨?_, ?_, rfl⟩
  · simp [Link.AttachStaticModel, h]
  · cases hfi : s.attachedModels.findIdx? fun x => x = nm with
    | none => simpa [Link.DetachStaticModel, hfi] using h
    | some i =>
        simp only [Link.DetachStaticModel, hfi]
        exact length_eraseIdx_congr i _ _ h

/-- Witness for C10 on the empty link. -/
theorem attachment_parallel_vectors_witness :
    (emptyLink.AttachStaticModel "m1" idPose).attachedModels.length =
      (emptyLink.AttachStaticModel "m1" idPose).attachedModelsOffset.length ∧
    (emptyLink.DetachStaticModel "m2").attachedModels.length =
      (emptyLink.DetachStaticModel "m2").attachedModelsOffset.length ∧
    emptyLink.DetachAllStaticModels.attachedModels.length =
      emptyLink.DetachAllStaticModels.attachedModelsOffset.length :=
  attachment_parallel_vectors emptyLink "m1" "m2" idPose rfl

end GazeboLink
